import Mathlib

/-!
Shallow embedding of `opencensus/metrics/export/gauge.py` (OpenCensus Python
gauge metrics) and verification of its specification.

Modelling conventions:
* Python exceptions are explicit: an operation that can raise returns an
  `Option Exn` (the raised exception, if any) alongside its result/state, or a
  `PyResult`.  A `raise` in the Python source exits with the state as it was at
  that statement; the embedding returns that state explicitly.
* Python objects handed out to callers (gauge points) are identified by a
  `Nat` id allocated by the container, so that object identity ("the same
  instance") is expressible.  The container's `OrderedDict` is an
  insertion-ordered association list of `(label tuple, id, point state)`.
* Python `int` is unbounded, hence `Int`.  Python `float` is modelled by `Rat`;
  no claim here depends on rounding, only on exact values, conversion success
  and conversion failure.
* `utils.get_weakref(func)` gives a zero-argument accessor yielding the
  callable or `None` once its target is garbage collected; a
  `DerivedGaugePoint`'s tracked function is therefore an `Option PyFunc`,
  `none` meaning the target no longer exists.  Calling the `None` returned by
  a dead weakref raises `TypeError`, as in Python.
-/

namespace OCGauge

/-- Python exceptions raised by this module: `ValueError` (from the
`GaugePointLong` type checks and the argument validation in `BaseGauge`) and
`TypeError` (from calling a dead weakref's `None`, from a tracked callable, or
from `float()` on a non-numeric object). -/
inductive Exn where
  | valueError
  | typeError
deriving DecidableEq, Repr

/-- The Python values that flow through this module: integers, floats
(modelled exactly by rationals), `None`, and other objects (opaque, identified
by a number; not numeric, so `float()` on them raises `TypeError`). -/
inductive PyVal where
  | int (n : Int)
  | float (q : Rat)
  | pynone
  | obj (o : Nat)
deriving DecidableEq, Repr

/-- Result of a Python expression: a value, or a raised exception. -/
inductive PyResult (α : Type) where
  | ok (a : α)
  | raises (e : Exn)
deriving DecidableEq, Repr

/-- Python `float(val)` on the values of `PyVal`: numbers convert, `None` and
plain objects raise `TypeError`. -/
def pyFloat : PyVal → PyResult Rat
  | .int n => .ok (n : Rat)
  | .float q => .ok q
  | .pynone => .raises .typeError
  | .obj _ => .raises .typeError

/-- Embeds `isinstance(val, six.integer_types)`. -/
def isIntegerType : PyVal → Bool
  | .int _ => true
  | _ => false

namespace GaugePointLong

/-- Embeds `GaugePointLong.__init__`: the initial value. -/
def init : Int := 0

/-- Embeds `GaugePointLong.add`: raises `ValueError` unless `val` is an integer,
otherwise increments the held value.  Returns (raised exception, new value);
on the error path the held value is unchanged because the raise precedes the
mutation. -/
def add (value : Int) (val : PyVal) : Option Exn × Int :=
  if isIntegerType val then
    match val with
    | .int n => (none, value + n)
    | _ => (none, value)
  else
    (some .valueError, value)

/-- Embeds `GaugePointLong.set`: raises `ValueError` unless `val` is an integer,
otherwise replaces the held value. -/
def set (value : Int) (val : PyVal) : Option Exn × Int :=
  if isIntegerType val then
    match val with
    | .int n => (none, n)
    | _ => (none, value)
  else
    (some .valueError, value)

end GaugePointLong

namespace GaugePointDouble

/-- Embeds `GaugePointDouble.__init__`: the initial value. -/
def init : Rat := 0

/-- Embeds `GaugePointDouble.add`: `self.value += val`; Python numeric addition
accepts ints and floats and raises `TypeError` on non-numeric operands. -/
def add (value : Rat) (val : PyVal) : Option Exn × Rat :=
  match val with
  | .int n => (none, value + (n : Rat))
  | .float q => (none, value + q)
  | _ => (some .typeError, value)

/-- Embeds `GaugePointDouble.set`: `self.value = float(val)`; the conversion may
raise, in which case the held value is unchanged. -/
def set (value : Rat) (val : PyVal) : Option Exn × Rat :=
  match pyFloat val with
  | .ok q => (none, q)
  | .raises e => (some e, value)

end GaugePointDouble

/-- The two concrete gauge point kinds (`point_type` of the two mixins). -/
inductive PointKind where
  | long
  | double
deriving DecidableEq, Repr

/-- The state of a direct gauge point: a `GaugePointLong` holding an int or a
`GaugePointDouble` holding a float. -/
inductive GaugePointVal where
  | long (value : Int)
  | double (value : Rat)
deriving DecidableEq, Repr

/-- Embeds `self.point_type()`: a freshly constructed zero-valued point of the
declared kind. -/
def PointKind.newPoint : PointKind → GaugePointVal
  | .long => .long GaugePointLong.init
  | .double => .double GaugePointDouble.init

/-- Typed export values (`value_module.ValueLong` / `ValueDouble`). -/
inductive Value where
  | valueLong (n : Int)
  | valueDouble (q : Rat)
deriving DecidableEq, Repr

namespace GaugePointVal

/-- Embeds `get_value` of either direct point class: return the held scalar. -/
def get_value : GaugePointVal → PyVal
  | .long n => .int n
  | .double q => .float q

/-- Embeds `to_point_value` of either direct point class: the typed snapshot. -/
def to_point_value : GaugePointVal → Value
  | .long n => .valueLong n
  | .double q => .valueDouble q

/-- Embeds `set` dispatched on the point's class. -/
def set : GaugePointVal → PyVal → Option Exn × GaugePointVal
  | .long v, val =>
    match GaugePointLong.set v val with
    | (none, v') => (none, .long v')
    | (some e, v') => (some e, .long v')
  | .double v, val =>
    match GaugePointDouble.set v val with
    | (none, v') => (none, .double v')
    | (some e, v') => (some e, .double v')

/-- Embeds `add` dispatched on the point's class. -/
def add : GaugePointVal → PyVal → Option Exn × GaugePointVal
  | .long v, val =>
    match GaugePointLong.add v val with
    | (none, v') => (none, .long v')
    | (some e, v') => (some e, .long v')
  | .double v, val =>
    match GaugePointDouble.add v val with
    | (none, v') => (none, .double v')
    | (some e, v') => (some e, .double v')

end GaugePointVal

/-- A tracked Python callable: an identity plus what a call to it does
(returns a value or raises). -/
structure PyFunc where
  fid : Nat
  ret : PyResult PyVal
deriving DecidableEq, Repr

/-- Embeds `self.func()()` where `self.func` is the weakref accessor: if the target
has been garbage collected the accessor yields `None`, and calling `None`
raises `TypeError`; otherwise the call behaves as the callable does. -/
def callTracked : Option PyFunc → PyResult PyVal
  | none => .raises .typeError
  | some f => f.ret

/-- Embeds `DerivedGaugePoint`: a weakref to the tracked function (`none` once the
target is destroyed) plus the wrapped mutable `GaugePoint`. -/
structure DerivedGaugePoint where
  func : Option PyFunc
  gauge_point : GaugePointVal
deriving DecidableEq, Repr

namespace DerivedGaugePoint

/-- Embeds `DerivedGaugePoint.get_value`:
```
try:
    self.gauge_point.set(self.func()())
except TypeError:
    return None
return self.gauge_point.get_value()
```
Returns (uncaught exception, returned value where `none` is Python `None`,
point state after the call).  Only `TypeError` is caught; a `ValueError`
raised by `GaugePointLong.set` propagates. -/
def get_value (p : DerivedGaugePoint) :
    Option Exn × Option PyVal × DerivedGaugePoint :=
  match callTracked p.func with
  | .raises .typeError => (none, none, p)
  | .raises e => (some e, none, p)
  | .ok v =>
    match GaugePointVal.set p.gauge_point v with
    | (some .typeError, _) => (none, none, p)
    | (some e, _) => (some e, none, p)
    | (none, gp') => (none, some gp'.get_value, { p with gauge_point := gp' })

/-- Embeds `DerivedGaugePoint.to_point_value`: calls `get_value` (with its side
effect on the wrapped point) and, unless it yielded `None`, returns the
wrapped point's typed snapshot. -/
def to_point_value (p : DerivedGaugePoint) :
    Option Exn × Option Value × DerivedGaugePoint :=
  match p.get_value with
  | (some e, _, p') => (some e, none, p')
  | (none, none, p') => (none, none, p')
  | (none, some _, p') => (none, some p'.gauge_point.to_point_value, p')

end DerivedGaugePoint

/-- A label-value tuple: the elements are nullable opaque values (`None`
allowed in stored keys — the default series uses all-`None`). -/
abbrev Key := List (Option String)

/-- Embeds `MetricDescriptor(name, description, unit, self.descriptor_type,
label_keys)` — immutable metadata attached to every exported metric. -/
structure MetricDescriptor where
  name : String
  description : String
  unit : String
  descriptor_type : PointKind
  label_keys : List String
deriving DecidableEq, Repr

/-- Embeds `point_module.Point(value, timestamp)`; the value is `Option` because a
derived point whose target is gone contributes Python `None`. -/
structure Point where
  value : Option Value
  timestamp : Nat
deriving DecidableEq, Repr

/-- Embeds `time_series.TimeSeries(label_values, points, start_timestamp)`. -/
structure TimeSeries where
  label_values : Key
  points : List Point
  start_timestamp : Nat
deriving DecidableEq, Repr

/-- Embeds `metric.Metric(descriptor, time_series)`. -/
structure Metric where
  descriptor : MetricDescriptor
  time_series : List TimeSeries
deriving DecidableEq, Repr

/-- Embeds `BaseGauge` state, generic over the stored point type `π`
(`GaugePointVal` for direct gauges, `DerivedGaugePoint` for derived ones).
`points` is the `OrderedDict`: an insertion-ordered association list from the
label tuple to (object id, point state); object ids are allocated from
`nextId` and model Python object identity. -/
structure BaseGauge (π : Type) where
  descriptor : MetricDescriptor
  len_label_keys : Nat
  kind : PointKind
  points : List (Key × Nat × π)
  nextId : Nat
deriving DecidableEq, Repr

/-- Embeds `BaseGauge.__init__(name, description, unit, label_keys)`. -/
def newBaseGauge (π : Type) (name description unit : String)
    (kind : PointKind) (label_keys : List String) : BaseGauge π :=
  { descriptor := ⟨name, description, unit, kind, label_keys⟩
    len_label_keys := label_keys.length
    kind := kind
    points := []
    nextId := 0 }

namespace BaseGauge

variable {π : Type}

/-- Embeds `self.default_label_values = [None] * self._len_label_keys`. -/
def default_label_values (g : BaseGauge π) : Key :=
  List.replicate g.len_label_keys none

/-- The label tuples currently in the point map. -/
def keys (g : BaseGauge π) : List Key :=
  g.points.map (fun e => e.1)

/-- Embeds `BaseGauge._remove_time_series`: `del self.points[tuple(label_values)]`
with `KeyError` swallowed — the entry for exactly that tuple is dropped if
present, and nothing happens if absent.  (Dict keys are unique, so removing
the key removes exactly its one entry.) -/
def removeTS (g : BaseGauge π) (label_values : Key) : BaseGauge π :=
  { g with points := g.points.filter (fun e => decide (e.1 ≠ label_values)) }

/-- Embeds `BaseGauge.remove_time_series`: three validation checks, each raising
`ValueError` before any mutation, then `_remove_time_series`.  Returns
(raised exception, state after the call). -/
def remove_time_series (g : BaseGauge π) (label_values : Option Key) :
    Option Exn × BaseGauge π :=
  match label_values with
  | none => (some .valueError, g)
  | some lvs =>
    if lvs.any (fun lv => lv.isNone) then (some .valueError, g)
    else if lvs.length ≠ g.len_label_keys then (some .valueError, g)
    else (none, g.removeTS lvs)

/-- Embeds `BaseGauge.remove_default_time_series`. -/
def remove_default_time_series (g : BaseGauge π) : BaseGauge π :=
  g.removeTS g.default_label_values

/-- Embeds `BaseGauge.clear`: swap in a fresh empty map. -/
def clear (g : BaseGauge π) : BaseGauge π :=
  { g with points := [] }

/-- The validation shared by `remove_time_series`,
`Gauge.get_or_create_time_series` and `DerivedGauge.create_time_series`:
`label_values` absent, containing an absent element, or of the wrong length
each raise `ValueError`. -/
def validKey (g : BaseGauge π) (label_values : Option Key) : Prop :=
  ∃ lvs, label_values = some lvs ∧ (∀ lv ∈ lvs, lv ≠ none) ∧
    lvs.length = g.len_label_keys

instance (g : BaseGauge π) (lv : Option Key) : Decidable (g.validKey lv) :=
  match lv with
  | none => .isFalse (by simp [validKey])
  | some lvs =>
    decidable_of_iff
      ((∀ x ∈ lvs, x ≠ none) ∧ lvs.length = g.len_label_keys)
      (by simp [validKey])

end BaseGauge

/-- A direct gauge (`Gauge`, i.e. `LongGauge`/`DoubleGauge`): the map stores
mutable `GaugePointVal`s. -/
abbrev Gauge := BaseGauge GaugePointVal

/-- A derived gauge (`DerivedGauge`, i.e. `DerivedLongGauge` /
`DerivedDoubleGauge`): the map stores `DerivedGaugePoint`s. -/
abbrev DerivedGauge := BaseGauge DerivedGaugePoint

namespace Gauge

/-- Embeds `Gauge._get_or_create_time_series`:
`self.points.setdefault(tuple(label_values), self.point_type())` — return the
existing point's identity, or insert a fresh zero-valued point of the declared
kind at the end of the ordered map under a fresh identity. -/
def getOrCreateTS (g : Gauge) (lvs : Key) : Nat × Gauge :=
  match g.points.find? (fun e => decide (e.1 = lvs)) with
  | some e => (e.2.1, g)
  | none =>
    (g.nextId,
     { g with
        points := g.points ++ [(lvs, g.nextId, g.kind.newPoint)]
        nextId := g.nextId + 1 })

/-- Embeds `Gauge.get_or_create_time_series`: the three `ValueError` validation
checks (raised before any mutation), then the atomic get-or-insert.  On
success the returned `Nat` is the identity of the live point object. -/
def get_or_create_time_series (g : Gauge) (label_values : Option Key) :
    PyResult (Nat × Gauge) :=
  match label_values with
  | none => .raises .valueError
  | some lvs =>
    if lvs.any (fun lv => lv.isNone) then .raises .valueError
    else if lvs.length ≠ g.len_label_keys then .raises .valueError
    else .ok (g.getOrCreateTS lvs)

/-- Embeds `Gauge.get_or_create_default_time_series`. -/
def get_or_create_default_time_series (g : Gauge) : Nat × Gauge :=
  g.getOrCreateTS g.default_label_values

/-- The effect on the gauge of calling `add(val)` on the point object with
identity `i` (the handle returned by `get_or_create_time_series`, which is
the same object stored in the map).  If the point was removed from the map
the mutation touches only the orphaned object and the map is unaffected. -/
def addAt (g : Gauge) (i : Nat) (val : PyVal) : Option Exn × Gauge :=
  match g.points.find? (fun e => decide (e.2.1 = i)) with
  | none => (none, g)
  | some e =>
    match GaugePointVal.add e.2.2 val with
    | (exn, gp') =>
      (exn,
       { g with
          points := g.points.map
            (fun x => if x.2.1 = i then (x.1, x.2.1, gp') else x) })

/-- The effect of calling `set(val)` on the point object with identity `i`,
analogous to `addAt`. -/
def setAt (g : Gauge) (i : Nat) (val : PyVal) : Option Exn × Gauge :=
  match g.points.find? (fun e => decide (e.2.1 = i)) with
  | none => (none, g)
  | some e =>
    match GaugePointVal.set e.2.2 val with
    | (exn, gp') =>
      (exn,
       { g with
          points := g.points.map
            (fun x => if x.2.1 = i then (x.1, x.2.1, gp') else x) })

/-- Embeds `get_timeseries_list(points, timestamp)` for a direct gauge: one
`TimeSeries` per map entry, in iteration order, each holding a single `Point`
with the entry's current value and the given timestamp. -/
def get_timeseries_list (points : List (Key × Nat × GaugePointVal))
    (timestamp : Nat) : List TimeSeries :=
  points.map (fun e =>
    ⟨e.1, [⟨some e.2.2.to_point_value, timestamp⟩], timestamp⟩)

/-- Embeds `BaseGauge.get_metric` for a direct gauge: `None` on an empty map,
otherwise a `Metric` with the converted time-series list (conversion of a
direct point is pure, so no state change and no exception). -/
def get_metric (g : Gauge) (timestamp : Nat) : Option Metric :=
  if g.points.isEmpty then none
  else some ⟨g.descriptor, get_timeseries_list g.points timestamp⟩

end Gauge

namespace DerivedGauge

/-- Embeds `DerivedGauge._create_time_series`: `self.points.setdefault(
tuple(label_values), DerivedGaugePoint(func, self.point_type()))` — return
the already-registered derived point's identity if the tuple is present
(first registration wins), otherwise insert a fresh derived point wrapping
`func` and a zero-valued point. -/
def createTS (g : DerivedGauge) (lvs : Key) (func : PyFunc) :
    Nat × DerivedGauge :=
  match g.points.find? (fun e => decide (e.1 = lvs)) with
  | some e => (e.2.1, g)
  | none =>
    (g.nextId,
     { g with
        points := g.points ++ [(lvs, g.nextId, ⟨some func, g.kind.newPoint⟩)]
        nextId := g.nextId + 1 })

/-- Embeds `DerivedGauge.create_time_series`: the three label validations and the
`func is None` check, each raising `ValueError` before any mutation, then the
atomic get-or-insert. -/
def create_time_series (g : DerivedGauge) (label_values : Option Key)
    (func : Option PyFunc) : PyResult (Nat × DerivedGauge) :=
  match label_values with
  | none => .raises .valueError
  | some lvs =>
    if lvs.any (fun lv => lv.isNone) then .raises .valueError
    else if lvs.length ≠ g.len_label_keys then .raises .valueError
    else
      match func with
      | none => .raises .valueError
      | some f => .ok (g.createTS lvs f)

/-- Embeds `DerivedGauge.create_default_time_series`. -/
def create_default_time_series (g : DerivedGauge) (func : Option PyFunc) :
    PyResult (Nat × DerivedGauge) :=
  match func with
  | none => .raises .valueError
  | some f => .ok (g.createTS g.default_label_values f)

/-- Embeds `get_timeseries_list(points, timestamp)` for a derived gauge: converting
each point calls its tracked function (a side effect on the stored point) and
may raise an uncaught exception, which aborts the loop.  Returns (uncaught
exception, series built so far, updated map entries). -/
def get_timeseries_list (timestamp : Nat) :
    List (Key × Nat × DerivedGaugePoint) →
      Option Exn × List TimeSeries × List (Key × Nat × DerivedGaugePoint)
  | [] => (none, [], [])
  | e :: rest =>
    match DerivedGaugePoint.to_point_value e.2.2 with
    | (some exn, _, p') => (some exn, [], (e.1, e.2.1, p') :: rest)
    | (none, v, p') =>
      match get_timeseries_list timestamp rest with
      | (some exn, tsl, rest') => (some exn, tsl, (e.1, e.2.1, p') :: rest')
      | (none, tsl, rest') =>
        (none, (⟨e.1, [⟨v, timestamp⟩], timestamp⟩ : TimeSeries) :: tsl,
         (e.1, e.2.1, p') :: rest')

/-- Embeds `BaseGauge.get_metric` for a derived gauge: `None` on an empty map;
otherwise convert every entry (invoking each tracked function) and return the
metric, or propagate an uncaught exception from a conversion.  Returns
(uncaught exception, metric, state after the call). -/
def get_metric (g : DerivedGauge) (timestamp : Nat) :
    Option Exn × Option Metric × DerivedGauge :=
  if g.points.isEmpty then (none, none, g)
  else
    match get_timeseries_list timestamp g.points with
    | (some exn, _, pts') => (some exn, none, { g with points := pts' })
    | (none, tsl, pts') =>
      (none, some ⟨g.descriptor, tsl⟩, { g with points := pts' })

end DerivedGauge

/-- Events in an execution of `BaseGauge.get_metric`: acquiring and releasing
`self._points_lock`, and the conversion of one map entry into its export
value (the `gp.to_point_value()` call inside `get_timeseries_list`). -/
inductive LockEvent where
  | acquire
  | convert (label_values : Key)
  | release
deriving DecidableEq, Repr

/-- The event trace of `BaseGauge.get_metric` on a non-empty map: the code
runs `with self._points_lock: ts_list = get_timeseries_list(self.points,
timestamp)`, so the lock is acquired, every entry is converted inside the
`with` block, and only then is the lock released. -/
def BaseGauge.get_metric_trace {π : Type} (g : BaseGauge π) : List LockEvent :=
  if g.points.isEmpty then []
  else .acquire :: ((g.points.map fun e => LockEvent.convert e.1) ++ [.release])

/-- Modelled from the spec: "takes the container lock just long enough to
copy the current pairs, releases the lock, then — outside the lock — converts
each pair", i.e. in the trace every conversion event occurs strictly after
the release of the map lock.  This is the spec's description, to be compared
against the trace the code actually produces. -/
def convertsOutsideLock (tr : List LockEvent) : Prop :=
  ∀ i j lv, tr.get? i = some .release → tr.get? j = some (.convert lv) → i < j

/-- The operations a caller can perform on a direct gauge (the public surface
plus mutation of a previously obtained point handle). -/
inductive GaugeOp where
  | getOrCreate (label_values : Option Key)
  | getOrCreateDefault
  | remove (label_values : Option Key)
  | removeDefault
  | clearAll
  | addPt (i : Nat) (val : PyVal)
  | setPt (i : Nat) (val : PyVal)
deriving DecidableEq, Repr

namespace Gauge

/-- Run one operation on a direct gauge, keeping the resulting state (a
raised `ValueError` leaves the state untouched, since validation precedes any
mutation in the source). -/
def runOp (g : Gauge) : GaugeOp → Gauge
  | .getOrCreate lv =>
    match g.get_or_create_time_series lv with
    | .ok r => r.2
    | .raises _ => g
  | .getOrCreateDefault => (g.get_or_create_default_time_series).2
  | .remove lv => (g.remove_time_series lv).2
  | .removeDefault => g.remove_default_time_series
  | .clearAll => g.clear
  | .addPt i val => (g.addAt i val).2
  | .setPt i val => (g.setAt i val).2

/-- Run a sequence of operations left to right. -/
def runOps (g : Gauge) (ops : List GaugeOp) : Gauge :=
  ops.foldl runOp g

end Gauge

/-- Whether an operation can (re-)create the series for the tuple `t` on a
gauge with `len` label keys: only the get-or-create operations insert keys,
and only their own tuple. -/
def GaugeOp.creates (len : Nat) (t : Key) : GaugeOp → Bool
  | .getOrCreate (some lvs) => decide (lvs = t)
  | .getOrCreateDefault => decide (List.replicate len (none : Option String) = t)
  | _ => false

/-- Well-formedness of a gauge state: point object identities are pairwise
distinct and below the allocation counter, and the map's keys are pairwise
distinct (dict keys are unique).  Every state reachable through the public
operations satisfies this. -/
def BaseGauge.WF {π : Type} (g : BaseGauge π) : Prop :=
  (∀ e ∈ g.points, e.2.1 < g.nextId) ∧
    (g.points.map fun e => e.2.1).Nodup ∧
    (g.points.map fun e => e.1).Nodup

instance {π : Type} (g : BaseGauge π) : Decidable g.WF :=
  decidable_of_iff
    ((∀ e ∈ g.points, e.2.1 < g.nextId) ∧
      (g.points.map fun (e : Key × Nat × π) => e.2.1).Nodup ∧
      (g.points.map fun (e : Key × Nat × π) => e.1).Nodup)
    Iff.rfl

/-- A fresh direct long gauge with the single label key of the spec's
scenario (`LongGauge("requests", ..., ["method"])`). -/
def methodGauge : Gauge :=
  newBaseGauge GaugePointVal "requests" "requests by method" "1"
    PointKind.long ["method"]

/-- The scenario gauge after `get_or_create_time_series(["GET"])`. -/
def gaugeGET : Gauge :=
  (methodGauge.getOrCreateTS [some "GET"]).2

/-- Tracked callable returning the float `1/2` when invoked. -/
def floatFunc : PyFunc :=
  ⟨0, PyResult.ok (PyVal.float (1 / 2))⟩

/-- Tracked callable returning the integer `7` when invoked. -/
def intFunc : PyFunc :=
  ⟨1, PyResult.ok (PyVal.int 7)⟩

/-- Tracked callable returning Python `None` when invoked. -/
def pynoneFunc : PyFunc :=
  ⟨2, PyResult.ok PyVal.pynone⟩

/-- A fresh derived long gauge with no label keys. -/
def emptyDerivedGauge : DerivedGauge :=
  newBaseGauge DerivedGaugePoint "proc" "tracked process stat" "1"
    PointKind.long []

/-- Derived long gauge whose default series tracks a function returning a
float: converting its point raises an uncaught `ValueError`. -/
def badDerivedGauge : DerivedGauge :=
  (emptyDerivedGauge.createTS [] floatFunc).2

/-- Derived long gauge whose default series tracks a function returning an
integer. -/
def goodDerivedGauge : DerivedGauge :=
  (emptyDerivedGauge.createTS [] intFunc).2

/-- A derived point whose tracked function's target has been destroyed. -/
def deadPoint : DerivedGaugePoint :=
  ⟨none, GaugePointVal.long 0⟩

/-- A live derived point over a long gauge point holding 3, tracking a
function that returns the integer 7. -/
def livePoint : DerivedGaugePoint :=
  ⟨some intFunc, GaugePointVal.long 3⟩

/-- A live derived point over a double gauge point whose tracked function
returns Python `None`, which `float()` cannot convert. -/
def noneReturningPoint : DerivedGaugePoint :=
  ⟨some pynoneFunc, GaugePointVal.double 0⟩

/-- The scenario gauge after creating the series for `["GET"]` and then for
`["POST"]`. -/
def gaugeGETPOST : Gauge :=
  (gaugeGET.getOrCreateTS [some "POST"]).2

/-- The gauge obtained from `gaugeGET` by removing `["GET"]` and then
creating `["POST"]`. -/
def postSnapshotGauge : Gauge :=
  Gauge.runOps ((gaugeGET.remove_time_series (some [some "GET"])).2)
    [GaugeOp.getOrCreate (some [some "POST"])]

/-- The single time series `postSnapshotGauge` exports at timestamp 0. -/
def postTS : TimeSeries :=
  ⟨[some "POST"], [⟨some (Value.valueLong 0), 0⟩], 0⟩

/-- The metric `postSnapshotGauge` exports at timestamp 0. -/
def postMetric : Metric :=
  ⟨methodGauge.descriptor, [postTS]⟩

/-! Supporting lemmas (not tied to a single claim). -/

/-- On a valid tuple, `remove_time_series` raises nothing and performs the
deletion. -/
theorem remove_valid {π : Type} (g : BaseGauge π) (lvs : Key)
    (h : g.validKey (some lvs)) :
    g.remove_time_series (some lvs) = (none, g.removeTS lvs) := by
  obtain ⟨l, hl, hnn, hlen⟩ := h
  obtain rfl : lvs = l := by injection hl
  simp only [BaseGauge.remove_time_series]
  rw [if_neg, if_neg]
  · simp [hlen]
  · simp only [List.any_eq_true, Option.isNone_iff_eq_none]
    push_neg
    exact hnn

/-- On a valid tuple, `get_or_create_time_series` raises nothing and performs
the get-or-insert. -/
theorem goc_valid (g : Gauge) (lvs : Key) (h : g.validKey (some lvs)) :
    g.get_or_create_time_series (some lvs) = .ok (g.getOrCreateTS lvs) := by
  obtain ⟨l, hl, hnn, hlen⟩ := h
  obtain rfl : lvs = l := by injection hl
  simp only [Gauge.get_or_create_time_series]
  rw [if_neg, if_neg]
  · simp [hlen]
  · simp only [List.any_eq_true, Option.isNone_iff_eq_none]
    push_neg
    exact hnn

/-- On a valid tuple and a present function, `create_time_series` raises
nothing and performs the get-or-insert. -/
theorem create_valid (g : DerivedGauge) (lvs : Key) (f : PyFunc)
    (h : g.validKey (some lvs)) :
    g.create_time_series (some lvs) (some f) = .ok (g.createTS lvs f) := by
  obtain ⟨l, hl, hnn, hlen⟩ := h
  obtain rfl : lvs = l := by injection hl
  simp only [DerivedGauge.create_time_series]
  rw [if_neg, if_neg]
  · simp [hlen]
  · simp only [List.any_eq_true, Option.isNone_iff_eq_none]
    push_neg
    exact hnn

/-- Whatever `get_or_create_time_series` returns on success is the result of
the internal get-or-insert (the validation itself never mutates). -/
theorem goc_ok (g : Gauge) (lvs : Key) (r : Nat × Gauge)
    (h : g.get_or_create_time_series (some lvs) = .ok r) :
    r = g.getOrCreateTS lvs := by
  simp only [Gauge.get_or_create_time_series] at h
  by_cases h1 : lvs.any (fun lv => lv.isNone) = true
  · rw [if_pos h1] at h
    cases h
  · rw [if_neg h1] at h
    by_cases h2 : lvs.length ≠ g.len_label_keys
    · rw [if_pos h2] at h
      cases h
    · rw [if_neg h2] at h
      cases h
      rfl

/-- The get-or-insert on a found key returns the stored point's identity and
leaves the gauge unchanged. -/
theorem getOrCreateTS_found (g : Gauge) (t : Key) (e : Key × Nat × GaugePointVal)
    (h : g.points.find? (fun x => decide (x.1 = t)) = some e) :
    g.getOrCreateTS t = (e.2.1, g) := by
  simp [Gauge.getOrCreateTS, h]

/-- The get-or-insert on an absent key appends a fresh zero point under a
fresh identity. -/
theorem getOrCreateTS_fresh (g : Gauge) (t : Key) (h : t ∉ g.keys) :
    g.points.find? (fun x => decide (x.1 = t)) = none ∧
    g.getOrCreateTS t =
      (g.nextId,
       { g with
          points := g.points ++ [(t, g.nextId, g.kind.newPoint)]
          nextId := g.nextId + 1 }) := by
  have hf : g.points.find? (fun x => decide (x.1 = t)) = none := by
    rw [List.find?_eq_none]
    intro x hx
    simp only [decide_eq_true_eq]
    intro hxt
    exact h (List.mem_map.mpr ⟨x, hx, hxt⟩)
  exact ⟨hf, by simp [Gauge.getOrCreateTS, hf]⟩

/-- The get-or-insert on a key the find misses appends a fresh zero point
under a fresh identity (explicit record form). -/
theorem getOrCreateTS_none (g : Gauge) (t : Key)
    (h : g.points.find? (fun x => decide (x.1 = t)) = none) :
    g.getOrCreateTS t =
      (g.nextId,
       { g with
          points := g.points ++ [(t, g.nextId, g.kind.newPoint)]
          nextId := g.nextId + 1 }) := by
  simp [Gauge.getOrCreateTS, h]

/-- The derived get-or-insert on a found key returns the stored point's
identity and leaves the gauge unchanged — in particular it discards `func`. -/
theorem createTS_found (g : DerivedGauge) (t : Key) (f : PyFunc)
    (e : Key × Nat × DerivedGaugePoint)
    (h : g.points.find? (fun x => decide (x.1 = t)) = some e) :
    g.createTS t f = (e.2.1, g) := by
  simp [DerivedGauge.createTS, h]

/-- The derived get-or-insert on a missed key appends a fresh derived point
wrapping `func` under a fresh identity. -/
theorem createTS_none (g : DerivedGauge) (t : Key) (f : PyFunc)
    (h : g.points.find? (fun x => decide (x.1 = t)) = none) :
    g.createTS t f =
      (g.nextId,
       { g with
          points :=
            g.points ++ [(t, g.nextId, ⟨some f, g.kind.newPoint⟩)]
          nextId := g.nextId + 1 }) := by
  simp [DerivedGauge.createTS, h]

/-- Whatever `create_time_series` returns on success is the result of the
internal get-or-insert. -/
theorem create_ok (g : DerivedGauge) (lvs : Key) (f : PyFunc)
    (r : Nat × DerivedGauge)
    (h : g.create_time_series (some lvs) (some f) = .ok r) :
    r = g.createTS lvs f := by
  simp only [DerivedGauge.create_time_series] at h
  by_cases h1 : lvs.any (fun lv => lv.isNone) = true
  · rw [if_pos h1] at h
    cases h
  · rw [if_neg h1] at h
    by_cases h2 : lvs.length ≠ g.len_label_keys
    · rw [if_pos h2] at h
      cases h
    · rw [if_neg h2] at h
      cases h
      rfl

/-- On a valid tuple but an absent function, `create_time_series` raises
`ValueError`. -/
theorem create_none_raises (g : DerivedGauge) (lvs : Key)
    (h : g.validKey (some lvs)) :
    g.create_time_series (some lvs) none = .raises .valueError := by
  obtain ⟨l, hl, hnn, hlen⟩ := h
  obtain rfl : lvs = l := by injection hl
  simp only [DerivedGauge.create_time_series]
  rw [if_neg, if_neg]
  · simp [hlen]
  · simp only [List.any_eq_true, Option.isNone_iff_eq_none]
    push_neg
    exact hnn

/-- Get-or-insert preserves the declared label-key count. -/
theorem getOrCreateTS_len (g : Gauge) (lvs : Key) :
    ((g.getOrCreateTS lvs).2).len_label_keys = g.len_label_keys := by
  unfold Gauge.getOrCreateTS
  split <;> rfl

/-- Get-or-insert either leaves the key set unchanged or appends its key. -/
theorem keys_getOrCreateTS (g : Gauge) (lvs : Key) :
    ((g.getOrCreateTS lvs).2).keys = g.keys ∨
      ((g.getOrCreateTS lvs).2).keys = g.keys ++ [lvs] := by
  unfold Gauge.getOrCreateTS
  split
  · exact Or.inl rfl
  · exact Or.inr (by simp [BaseGauge.keys])

/-- Keys of the map after an internal removal are among the original keys. -/
theorem keys_removeTS_sub {π : Type} (g : BaseGauge π) (lvs : Key) :
    ∀ t, t ∈ (g.removeTS lvs).keys → t ∈ g.keys := by
  intro t ht
  simp only [BaseGauge.keys, BaseGauge.removeTS, List.mem_map] at ht ⊢
  obtain ⟨e, he, rfl⟩ := ht
  exact ⟨e, List.mem_of_mem_filter he, rfl⟩

/-- The removed key is gone from the map. -/
theorem not_mem_keys_removeTS_self {π : Type} (g : BaseGauge π) (lvs : Key) :
    lvs ∉ (g.removeTS lvs).keys := by
  intro h
  simp only [BaseGauge.keys, BaseGauge.removeTS, List.mem_map] at h
  obtain ⟨e, he, h1⟩ := h
  have h2 := List.of_mem_filter he
  simp only [decide_eq_true_eq] at h2
  exact h2 h1

/-- Mutating a point handle does not change the key set. -/
theorem keys_addAt (g : Gauge) (i : Nat) (val : PyVal) :
    ((g.addAt i val).2).keys = g.keys := by
  unfold Gauge.addAt
  split
  · rfl
  · simp only [BaseGauge.keys, List.map_map]
    refine List.map_congr_left ?_
    intro x hx
    by_cases hxi : x.2.1 = i <;> simp [Function.comp, hxi]

/-- Mutating a point handle via `set` does not change the key set. -/
theorem keys_setAt (g : Gauge) (i : Nat) (val : PyVal) :
    ((g.setAt i val).2).keys = g.keys := by
  unfold Gauge.setAt
  split
  · rfl
  · simp only [BaseGauge.keys, List.map_map]
    refine List.map_congr_left ?_
    intro x hx
    by_cases hxi : x.2.1 = i <;> simp [Function.comp, hxi]

/-- Removal preserves the key-absence of any other key. -/
theorem remove_preserves_not_mem (g : Gauge) (lv : Option Key) (t : Key)
    (h : t ∉ g.keys) : t ∉ ((g.remove_time_series lv).2).keys := by
  cases lv with
  | none => exact h
  | some lvs =>
    simp only [BaseGauge.remove_time_series]
    by_cases h1 : lvs.any (fun lv => lv.isNone) = true
    · rwa [if_pos h1]
    · rw [if_neg h1]
      by_cases h2 : lvs.length ≠ g.len_label_keys
      · rwa [if_pos h2]
      · rw [if_neg h2]
        intro hmem
        exact h (keys_removeTS_sub g lvs t hmem)

/-- Every operation preserves the declared label-key count. -/
theorem runOp_len (g : Gauge) (op : GaugeOp) :
    (g.runOp op).len_label_keys = g.len_label_keys := by
  cases op with
  | getOrCreate lv =>
    cases lv with
    | none => rfl
    | some lvs =>
      simp only [Gauge.runOp]
      cases h : g.get_or_create_time_series (some lvs) with
      | ok r => rw [goc_ok g lvs r h, getOrCreateTS_len]
      | raises e => rfl
  | getOrCreateDefault => exact getOrCreateTS_len g _
  | remove lv =>
    cases lv with
    | none => rfl
    | some lvs =>
      simp only [Gauge.runOp, BaseGauge.remove_time_series]
      by_cases h1 : lvs.any (fun lv => lv.isNone) = true
      · rw [if_pos h1]
      · rw [if_neg h1]
        by_cases h2 : lvs.length ≠ g.len_label_keys
        · rw [if_pos h2]
        · rw [if_neg h2]
          rfl
  | removeDefault => rfl
  | clearAll => rfl
  | addPt i val =>
    simp only [Gauge.runOp, Gauge.addAt]
    split <;> rfl
  | setPt i val =>
    simp only [Gauge.runOp, Gauge.setAt]
    split <;> rfl

/-- An operation that does not create the key `t` preserves its absence. -/
theorem notMem_keys_runOp (g : Gauge) (op : GaugeOp) (t : Key)
    (hnot : t ∉ g.keys) (hcr : op.creates g.len_label_keys t = false) :
    t ∉ (g.runOp op).keys := by
  cases op with
  | getOrCreate lv =>
    cases lv with
    | none => exact hnot
    | some lvs =>
      have hne : lvs ≠ t := by
        simpa [GaugeOp.creates] using hcr
      simp only [Gauge.runOp]
      cases h : g.get_or_create_time_series (some lvs) with
      | raises e => exact hnot
      | ok r =>
        rw [goc_ok g lvs r h]
        rcases keys_getOrCreateTS g lvs with hk | hk
        · rw [hk]; exact hnot
        · rw [hk]
          intro hmem
          rcases List.mem_append.mp hmem with hmem | hmem
          · exact hnot hmem
          · simp only [List.mem_singleton] at hmem
            exact hne hmem.symm
  | getOrCreateDefault =>
    have hne : g.default_label_values ≠ t := by
      simpa [GaugeOp.creates, BaseGauge.default_label_values] using hcr
    simp only [Gauge.runOp, Gauge.get_or_create_default_time_series]
    rcases keys_getOrCreateTS g g.default_label_values with hk | hk
    · rw [hk]; exact hnot
    · rw [hk]
      intro hmem
      rcases List.mem_append.mp hmem with hmem | hmem
      · exact hnot hmem
      · simp only [List.mem_singleton] at hmem
        exact hne hmem.symm
  | remove lv => exact remove_preserves_not_mem g lv t hnot
  | removeDefault =>
    intro hmem
    exact hnot (keys_removeTS_sub g _ t hmem)
  | clearAll => simp [Gauge.runOp, BaseGauge.clear, BaseGauge.keys]
  | addPt i val => rw [Gauge.runOp, keys_addAt]; exact hnot
  | setPt i val => rw [Gauge.runOp, keys_setAt]; exact hnot

/-- A sequence of operations none of which creates the key `t` preserves its
absence. -/
theorem notMem_keys_runOps (g : Gauge) (ops : List GaugeOp) (t : Key)
    (hnot : t ∉ g.keys)
    (hcr : ∀ op ∈ ops, op.creates g.len_label_keys t = false) :
    t ∉ (Gauge.runOps g ops).keys := by
  induction ops generalizing g with
  | nil => exact hnot
  | cons op rest ih =>
    have h1 : t ∉ (g.runOp op).keys :=
      notMem_keys_runOp g op t hnot (hcr op (List.mem_cons_self op rest))
    have h2 : ∀ o ∈ rest, o.creates (g.runOp op).len_label_keys t = false := by
      intro o ho
      rw [runOp_len]
      exact hcr o (List.mem_cons_of_mem _ ho)
    exact ih (g.runOp op) h1 h2

/-- Every time series in a direct gauge's metric is keyed by one of the
gauge's current label tuples. -/
theorem get_metric_labels (g : Gauge) (t : Nat) (m : Metric)
    (h : g.get_metric t = some m) :
    ∀ ts ∈ m.time_series, ts.label_values ∈ g.keys := by
  simp only [Gauge.get_metric] at h
  by_cases he : g.points.isEmpty
  · rw [if_pos he] at h
    cases h
  · rw [if_neg he] at h
    injection h with h'
    subst h'
    intro ts hts
    simp only [Gauge.get_timeseries_list, List.mem_map] at hts
    obtain ⟨e, he', rfl⟩ := hts
    exact List.mem_map.mpr ⟨e, he', rfl⟩

/-! Claim theorems. -/

/-- C3: for every non-integral input value, the integer gauge point's `add`
and `set` raise the `InvalidValueKind` error (Python `ValueError`) and leave
the held value unchanged; for every integral input they succeed, `add`
incrementing and `set` replacing the held value. -/
theorem C3_long_point_rejects_non_integral :
    ∀ (v : Int) (val : PyVal),
      (isIntegerType val = false →
        GaugePointLong.add v val = (some Exn.valueError, v) ∧
        GaugePointLong.set v val = (some Exn.valueError, v)) ∧
      (∀ n : Int, val = PyVal.int n →
        GaugePointLong.add v val = (none, v + n) ∧
        GaugePointLong.set v val = (none, n)) := by
  intro v val
  constructor
  · intro h
    constructor <;> simp [GaugePointLong.add, GaugePointLong.set, h]
  · rintro n rfl
    constructor <;> simp [GaugePointLong.add, GaugePointLong.set, isIntegerType]

/-- Witness for C3 at concrete inputs: a float input raises and leaves the
value 2 unchanged; an integral input increments 2 by 3 / replaces it by 3. -/
theorem C3_long_point_rejects_non_integral_witness :
    GaugePointLong.add 2 (PyVal.float (1 / 2)) = (some Exn.valueError, 2) ∧
    GaugePointLong.set 2 (PyVal.float (1 / 2)) = (some Exn.valueError, 2) ∧
    GaugePointLong.add 2 (PyVal.int 3) = (none, 5) ∧
    GaugePointLong.set 2 (PyVal.int 3) = (none, 3) := by
  refine ⟨((C3_long_point_rejects_non_integral 2 (PyVal.float (1 / 2))).1 rfl).1,
    ((C3_long_point_rejects_non_integral 2 (PyVal.float (1 / 2))).1 rfl).2,
    ?_,
    ((C3_long_point_rejects_non_integral 2 (PyVal.int 3)).2 3 rfl).2⟩
  have h := ((C3_long_point_rejects_non_integral 2 (PyVal.int 3)).2 3 rfl).1
  simpa using h

/-- C7: a derived point whose tracked function's target has been destroyed
yields absent (Python `None`) from both `get_value` and `to_point_value`
without raising; when the target is live and the callable returns a value of
the wrapped point's kind, `get_value` stores the result via `set` and returns
the wrapped point's current value, and `to_point_value` returns the wrapped
point's typed snapshot. -/
theorem C7_derived_point_absent_and_live :
    ∀ (p : DerivedGaugePoint),
      (p.func = none →
        p.get_value = (none, none, p) ∧
        p.to_point_value = (none, none, p)) ∧
      (∀ (f : PyFunc) (n : Int) (w : Int),
        p.func = some f → f.ret = PyResult.ok (PyVal.int n) →
        p.gauge_point = GaugePointVal.long w →
        p.get_value =
          (none, some (PyVal.int n), ⟨some f, GaugePointVal.long n⟩) ∧
        p.to_point_value =
          (none, some (Value.valueLong n), ⟨some f, GaugePointVal.long n⟩)) ∧
      (∀ (f : PyFunc) (v : PyVal) (q : Rat) (w : Rat),
        p.func = some f → f.ret = PyResult.ok v → pyFloat v = PyResult.ok q →
        p.gauge_point = GaugePointVal.double w →
        p.get_value =
          (none, some (PyVal.float q), ⟨some f, GaugePointVal.double q⟩) ∧
        p.to_point_value =
          (none, some (Value.valueDouble q),
            ⟨some f, GaugePointVal.double q⟩)) := by
  intro p
  obtain ⟨fo, gp⟩ := p
  refine ⟨?_, ?_, ?_⟩
  · rintro rfl
    exact ⟨rfl, rfl⟩
  · rintro f n w rfl hret rfl
    constructor <;>
      simp [DerivedGaugePoint.get_value, DerivedGaugePoint.to_point_value,
        callTracked, hret, GaugePointVal.set, GaugePointLong.set,
        isIntegerType, GaugePointVal.get_value, GaugePointVal.to_point_value]
  · rintro f v q w rfl hret hq rfl
    constructor <;>
      simp [DerivedGaugePoint.get_value, DerivedGaugePoint.to_point_value,
        callTracked, hret, GaugePointVal.set, GaugePointDouble.set, hq,
        GaugePointVal.get_value, GaugePointVal.to_point_value]

/-- Witness for C7: the dead point yields absent from both reads; the live
point tracking a function returning 7 stores 7 and reports it. -/
theorem C7_derived_point_absent_and_live_witness :
    (deadPoint.get_value = (none, none, deadPoint) ∧
      deadPoint.to_point_value = (none, none, deadPoint)) ∧
    (livePoint.get_value =
        (none, some (PyVal.int 7), ⟨some intFunc, GaugePointVal.long 7⟩) ∧
      livePoint.to_point_value =
        (none, some (Value.valueLong 7),
          ⟨some intFunc, GaugePointVal.long 7⟩)) :=
  ⟨(C7_derived_point_absent_and_live deadPoint).1 rfl,
   (C7_derived_point_absent_and_live livePoint).2.1 intFunc 7 3 rfl rfl rfl⟩

/-- C10 (implicit): `DerivedGaugePoint.get_value` returns absent (Python
`None`) whenever evaluating and storing the tracked function's result raises
a `TypeError` — the garbage-collected target, a live callable that itself
raises `TypeError`, or a floating-point derived point whose function returns
a value `float()` cannot convert — and in each case the error is silently
mapped to absent (no exception propagates) for both `get_value` and
`to_point_value`, with the point state untouched. -/
theorem C10_typeerror_means_absent :
    ∀ (p : DerivedGaugePoint),
      (p.func = none ∨
        (∃ f, p.func = some f ∧ f.ret = PyResult.raises Exn.typeError) ∨
        (∃ f v w, p.func = some f ∧ f.ret = PyResult.ok v ∧
          p.gauge_point = GaugePointVal.double w ∧
          pyFloat v = PyResult.raises Exn.typeError)) →
      p.get_value = (none, none, p) ∧ p.to_point_value = (none, none, p) := by
  intro p h
  obtain ⟨fo, gp⟩ := p
  rcases h with rfl | ⟨f, rfl, hret⟩ | ⟨f, v, w, rfl, hret, rfl, hv⟩
  · exact ⟨rfl, rfl⟩
  · constructor <;>
      simp [DerivedGaugePoint.get_value, DerivedGaugePoint.to_point_value,
        callTracked, hret]
  · constructor <;>
      simp [DerivedGaugePoint.get_value, DerivedGaugePoint.to_point_value,
        callTracked, hret, GaugePointVal.set, GaugePointDouble.set, hv]

/-- Witness for C10: a double derived point whose live function returns
Python `None` (which `float()` rejects with `TypeError`) reads as absent
without an exception. -/
theorem C10_typeerror_means_absent_witness :
    noneReturningPoint.get_value = (none, none, noneReturningPoint) ∧
    noneReturningPoint.to_point_value = (none, none, noneReturningPoint) :=
  C10_typeerror_means_absent noneReturningPoint
    (Or.inr (Or.inr ⟨pynoneFunc, PyVal.pynone, 0, rfl, rfl, rfl, rfl⟩))

/-- C1: in general, `get_metric` on a non-empty direct gauge yields one
`TimeSeries` per map entry in the map's iteration order, each containing
exactly one `Point` tagged with the given timestamp; and in the spec's
scenario — an integer gauge with label keys `["method"]`, after
`get_or_create_time_series(["GET"])`, `add(5)`, `add(3)` on the returned
point — `get_metric t` yields exactly one time series, keyed `("GET",)`,
whose single point carries the integer 8 and the timestamp `t`. -/
theorem C1_snapshot_scenario :
    (∀ (g : Gauge) (t : Nat), g.points ≠ [] →
      g.get_metric t =
        some ⟨g.descriptor,
          g.points.map fun e =>
            ⟨e.1, [⟨some e.2.2.to_point_value, t⟩], t⟩⟩) ∧
    (∀ (t : Nat) (i : Nat) (g1 : Gauge),
      methodGauge.get_or_create_time_series (some [some "GET"]) =
        PyResult.ok (i, g1) →
      ((((g1.addAt i (PyVal.int 5)).2).addAt i (PyVal.int 3)).2).get_metric t =
        some ⟨methodGauge.descriptor,
          [⟨[some "GET"], [⟨some (Value.valueLong 8), t⟩], t⟩]⟩) := by
  constructor
  · intro g t h
    simp [Gauge.get_metric, Gauge.get_timeseries_list, List.isEmpty_iff, h]
  · intro t i g1 h
    have hc : methodGauge.get_or_create_time_series (some [some "GET"]) =
        PyResult.ok (0, gaugeGET) := by rfl
    rw [hc] at h
    injection h with h'
    obtain ⟨rfl, rfl⟩ := Prod.mk.inj h'
    rfl

/-- Witness for C1: the general clause at the concrete gauge `gaugeGET` with
timestamp 0, and the scenario clause at timestamp 0. -/
theorem C1_snapshot_scenario_witness :
    gaugeGET.get_metric 0 =
      some ⟨methodGauge.descriptor,
        [⟨[some "GET"], [⟨some (Value.valueLong 0), 0⟩], 0⟩]⟩ ∧
    ((((gaugeGET.addAt 0 (PyVal.int 5)).2).addAt 0
        (PyVal.int 3)).2).get_metric 0 =
      some ⟨methodGauge.descriptor,
        [⟨[some "GET"], [⟨some (Value.valueLong 8), 0⟩], 0⟩]⟩ :=
  ⟨C1_snapshot_scenario.1 gaugeGET 0 (by decide),
   C1_snapshot_scenario.2 0 0 gaugeGET rfl⟩

/-- Counterexample to C2 as stated: `badDerivedGauge` has one entry, yet
`get_metric` does not return a metric — the tracked function of its integer
derived point returns a float, `GaugePointLong.set` raises `ValueError`, the
exception is not caught, and it propagates out of `get_metric`. -/
theorem C2_counterexample :
    badDerivedGauge.points ≠ [] ∧
    (badDerivedGauge.get_metric 0).1 = some Exn.valueError ∧
    (badDerivedGauge.get_metric 0).2.1 = none :=
  ⟨by decide, rfl, rfl⟩

/-- C2 amended: a gauge (direct or derived) with an empty point map yields
the absent result from `get_metric`, never an empty metric; a direct gauge
with at least one entry always returns a metric; a derived gauge with at
least one entry returns a metric when no tracked conversion raises an
uncaught exception, and propagates the exception (returning no metric)
otherwise. -/
theorem C2_empty_absent :
    (∀ (g : Gauge) (t : Nat), g.points = [] → g.get_metric t = none) ∧
    (∀ (g : Gauge) (t : Nat), g.points ≠ [] → (g.get_metric t).isSome) ∧
    (∀ (g : DerivedGauge) (t : Nat), g.points = [] →
      g.get_metric t = (none, none, g)) ∧
    (∀ (g : DerivedGauge) (t : Nat), g.points ≠ [] →
      (DerivedGauge.get_timeseries_list t g.points).1 = none →
      (g.get_metric t).1 = none ∧ (g.get_metric t).2.1.isSome) ∧
    (∀ (g : DerivedGauge) (t : Nat) (e : Exn), g.points ≠ [] →
      (DerivedGauge.get_timeseries_list t g.points).1 = some e →
      (g.get_metric t).1 = some e ∧ (g.get_metric t).2.1 = none) := by
  refine ⟨?_, ?_, ?_, ?_, ?_⟩
  · intro g t h
    simp [Gauge.get_metric, h]
  · intro g t h
    simp [Gauge.get_metric, List.isEmpty_iff, h]
  · intro g t h
    simp [DerivedGauge.get_metric, h]
  · intro g t hne hexn
    rcases hgt : DerivedGauge.get_timeseries_list t g.points
      with ⟨e1, tsl, pts'⟩
    rw [hgt] at hexn
    simp only at hexn
    subst hexn
    constructor <;> simp [DerivedGauge.get_metric, hgt, List.isEmpty_iff, hne]
  · intro g t e hne hexn
    rcases hgt : DerivedGauge.get_timeseries_list t g.points
      with ⟨e1, tsl, pts'⟩
    rw [hgt] at hexn
    simp only at hexn
    subst hexn
    constructor <;> simp [DerivedGauge.get_metric, hgt, List.isEmpty_iff, hne]

/-- Witness for C2 amended, at concrete gauges: the empty direct gauge and
the empty derived gauge yield absent; `gaugeGET` and `goodDerivedGauge`
yield metrics; `badDerivedGauge` propagates the `ValueError`. -/
theorem C2_empty_absent_witness :
    methodGauge.get_metric 0 = none ∧
    (gaugeGET.get_metric 0).isSome ∧
    emptyDerivedGauge.get_metric 0 = (none, none, emptyDerivedGauge) ∧
    ((goodDerivedGauge.get_metric 0).1 = none ∧
      (goodDerivedGauge.get_metric 0).2.1.isSome) ∧
    ((badDerivedGauge.get_metric 0).1 = some Exn.valueError ∧
      (badDerivedGauge.get_metric 0).2.1 = none) :=
  ⟨C2_empty_absent.1 methodGauge 0 rfl,
   C2_empty_absent.2.1 gaugeGET 0 (by decide),
   C2_empty_absent.2.2.1 emptyDerivedGauge 0 rfl,
   C2_empty_absent.2.2.2.1 goodDerivedGauge 0 (by decide) rfl,
   C2_empty_absent.2.2.2.2 badDerivedGauge 0 Exn.valueError (by decide) rfl⟩

/-- C4: `remove_time_series` raises `InvalidArgument` (Python `ValueError`)
when the label values are absent, contain an absent element, or have the
wrong length, leaving the point map completely unchanged in every such case;
on a valid tuple it deletes exactly that tuple's entry if present, keeps all
other entries, and is an error-free no-op if the tuple is absent. -/
theorem C4_remove_time_series_contract :
    ∀ (π : Type) (g : BaseGauge π) (lv : Option Key),
      (lv = none → g.remove_time_series lv = (some Exn.valueError, g)) ∧
      (∀ lvs, lv = some lvs → (∃ x ∈ lvs, x = none) →
        g.remove_time_series lv = (some Exn.valueError, g)) ∧
      (∀ lvs, lv = some lvs → lvs.length ≠ g.len_label_keys →
        g.remove_time_series lv = (some Exn.valueError, g)) ∧
      (∀ lvs, lv = some lvs → g.validKey lv →
        g.remove_time_series lv = (none, g.removeTS lvs) ∧
        (∀ e ∈ (g.removeTS lvs).points, e.1 ≠ lvs) ∧
        (∀ e ∈ g.points, e.1 ≠ lvs → e ∈ (g.removeTS lvs).points) ∧
        (lvs ∉ g.keys → g.removeTS lvs = g)) := by
  intro π g lv
  refine ⟨?_, ?_, ?_, ?_⟩
  · rintro rfl
    rfl
  · rintro lvs rfl ⟨x, hx, hxe⟩
    simp only [BaseGauge.remove_time_series]
    rw [if_pos]
    exact List.any_eq_true.mpr ⟨x, hx, by simp [hxe]⟩
  · rintro lvs rfl hlen
    simp only [BaseGauge.remove_time_series]
    by_cases h1 : lvs.any (fun lv => lv.isNone) = true
    · rw [if_pos h1]
    · rw [if_neg h1, if_pos hlen]
  · rintro lvs rfl hv
    refine ⟨remove_valid g lvs hv, ?_, ?_, ?_⟩
    · intro e he
      simp only [BaseGauge.removeTS] at he
      have h2 := List.of_mem_filter he
      simpa using h2
    · intro e he hne
      simp only [BaseGauge.removeTS]
      exact List.mem_filter.mpr ⟨he, by simpa using hne⟩
    · intro hnm
      have hf : g.points.filter (fun e => decide (e.1 ≠ lvs)) = g.points :=
        List.filter_eq_self.mpr (by
          intro a ha
          simp only [decide_eq_true_eq]
          intro hal
          exact hnm (List.mem_map.mpr ⟨a, ha, hal⟩))
      unfold BaseGauge.removeTS
      rw [hf]

/-- Witness for C4 at `gaugeGET`: absent and wrong-arity inputs raise and
leave the state unchanged; removing `["GET"]` empties the map; removing the
absent `["POST"]` is an error-free no-op. -/
theorem C4_remove_time_series_contract_witness :
    gaugeGET.remove_time_series none = (some Exn.valueError, gaugeGET) ∧
    gaugeGET.remove_time_series (some []) = (some Exn.valueError, gaugeGET) ∧
    gaugeGET.remove_time_series (some [some "GET"]) =
      (none, gaugeGET.removeTS [some "GET"]) ∧
    (gaugeGET.removeTS [some "GET"]).points = [] ∧
    gaugeGET.removeTS [some "POST"] = gaugeGET :=
  ⟨(C4_remove_time_series_contract GaugePointVal gaugeGET none).1 rfl,
   (C4_remove_time_series_contract GaugePointVal gaugeGET (some [])).2.2.1
     [] rfl (by decide),
   ((C4_remove_time_series_contract GaugePointVal gaugeGET
       (some [some "GET"])).2.2.2 [some "GET"] rfl (by decide)).1,
   by decide,
   (((C4_remove_time_series_contract GaugePointVal gaugeGET
       (some [some "POST"])).2.2.2 [some "POST"] rfl
       (by decide)).2.2.2 (by decide))⟩

/-- C5: on a well-formed gauge, `get_or_create_time_series` returns distinct
point instances (distinct object identities) for distinct valid tuples, the
identical instance on repeated calls with the same tuple, and a point created
by the first call for a tuple is the zero point of the gauge's declared kind
(0 for the integer kind, 0.0 for the floating-point kind). -/
theorem C5_get_or_create_identity :
    ∀ (g : Gauge) (t1 t2 : Key),
      g.WF → g.validKey (some t1) → g.validKey (some t2) → t1 ≠ t2 →
      (∀ i1 g1 i2 g2,
        g.get_or_create_time_series (some t1) = PyResult.ok (i1, g1) →
        g1.get_or_create_time_series (some t2) = PyResult.ok (i2, g2) →
        i1 ≠ i2) ∧
      (∀ i1 g1 i2 g2,
        g.get_or_create_time_series (some t1) = PyResult.ok (i1, g1) →
        g1.get_or_create_time_series (some t1) = PyResult.ok (i2, g2) →
        i2 = i1 ∧ g2 = g1) ∧
      (t1 ∉ g.keys →
        ∀ i1 g1,
          g.get_or_create_time_series (some t1) = PyResult.ok (i1, g1) →
          (t1, i1, g.kind.newPoint) ∈ g1.points) ∧
      PointKind.newPoint PointKind.long = GaugePointVal.long 0 ∧
      PointKind.newPoint PointKind.double = GaugePointVal.double 0 := by
  intro g t1 t2 hWF hv1 hv2 hne
  obtain ⟨hb, hidnd, hknd⟩ := hWF
  refine ⟨?_, ?_, ?_, rfl, rfl⟩
  · intro i1 g1 i2 g2 h1 h2
    have e1 := goc_ok g t1 (i1, g1) h1
    cases hf1 : g.points.find? (fun x => decide (x.1 = t1)) with
    | some e =>
      rw [getOrCreateTS_found g t1 e hf1] at e1
      obtain ⟨hi1, hg1⟩ := Prod.mk.inj e1
      rw [hg1] at h2
      rw [hi1]
      have e2 := goc_ok g t2 (i2, g2) h2
      cases hf2 : g.points.find? (fun x => decide (x.1 = t2)) with
      | some e' =>
        rw [getOrCreateTS_found g t2 e' hf2] at e2
        obtain ⟨hi2, hg2⟩ := Prod.mk.inj e2
        rw [hi2]
        intro heq
        have hm1 := List.mem_of_find?_eq_some hf1
        have hm2 := List.mem_of_find?_eq_some hf2
        have hp1 := List.find?_some hf1
        have hp2 := List.find?_some hf2
        simp only [decide_eq_true_eq] at hp1 hp2
        have hee : e = e' := List.inj_on_of_nodup_map hidnd hm1 hm2 heq
        exact hne (hp1 ▸ hp2 ▸ congrArg Prod.fst hee)
      | none =>
        rw [getOrCreateTS_none g t2 hf2] at e2
        obtain ⟨hi2, hg2⟩ := Prod.mk.inj e2
        rw [hi2]
        have hm1 := List.mem_of_find?_eq_some hf1
        exact Nat.ne_of_lt (hb e hm1)
    | none =>
      rw [getOrCreateTS_none g t1 hf1] at e1
      obtain ⟨hi1, hg1⟩ := Prod.mk.inj e1
      rw [hg1] at h2
      rw [hi1]
      have e2 := goc_ok _ t2 (i2, g2) h2
      cases hf2 :
          (g.points ++ [(t1, g.nextId, g.kind.newPoint)]).find?
            (fun x => decide (x.1 = t2)) with
      | some e' =>
        rw [getOrCreateTS_found _ t2 e' hf2] at e2
        obtain ⟨hi2, hg2⟩ := Prod.mk.inj e2
        rw [hi2]
        have hp2 := List.find?_some hf2
        simp only [decide_eq_true_eq] at hp2
        have hm2 := List.mem_of_find?_eq_some hf2
        rcases List.mem_append.mp hm2 with hmem | hmem
        · exact (Nat.ne_of_lt (hb e' hmem)).symm
        · simp only [List.mem_singleton] at hmem
          rw [hmem] at hp2
          exact absurd hp2 hne
      | none =>
        rw [getOrCreateTS_none _ t2 hf2] at e2
        obtain ⟨hi2, hg2⟩ := Prod.mk.inj e2
        rw [hi2]
        exact Nat.ne_of_lt (Nat.lt_succ_self _)
  · intro i1 g1 i2 g2 h1 h2
    have e1 := goc_ok g t1 (i1, g1) h1
    cases hf1 : g.points.find? (fun x => decide (x.1 = t1)) with
    | some e =>
      rw [getOrCreateTS_found g t1 e hf1] at e1
      obtain ⟨hi1, hg1⟩ := Prod.mk.inj e1
      rw [hg1] at h2
      have e2 := goc_ok g t1 (i2, g2) h2
      rw [getOrCreateTS_found g t1 e hf1] at e2
      obtain ⟨hi2, hg2⟩ := Prod.mk.inj e2
      rw [hi1, hi2, hg1, hg2]
      exact ⟨rfl, rfl⟩
    | none =>
      rw [getOrCreateTS_none g t1 hf1] at e1
      obtain ⟨hi1, hg1⟩ := Prod.mk.inj e1
      rw [hg1] at h2
      have e2 := goc_ok _ t1 (i2, g2) h2
      have hfApp :
          (g.points ++ [(t1, g.nextId, g.kind.newPoint)]).find?
            (fun x => decide (x.1 = t1)) =
          some (t1, g.nextId, g.kind.newPoint) := by
        rw [List.find?_append, hf1]
        simp
      rw [getOrCreateTS_found _ t1 _ hfApp] at e2
      obtain ⟨hi2, hg2⟩ := Prod.mk.inj e2
      rw [hi1, hi2, hg1, hg2]
      exact ⟨rfl, rfl⟩
  · intro hnm i1 g1 h1
    have e1 := goc_ok g t1 (i1, g1) h1
    obtain ⟨hf1, heq⟩ := getOrCreateTS_fresh g t1 hnm
    rw [heq] at e1
    obtain ⟨hi1, hg1⟩ := Prod.mk.inj e1
    rw [hi1, hg1]
    exact List.mem_append.mpr (Or.inr (List.mem_singleton.mpr rfl))

/-- Witness for C5 at the concrete scenario gauge: creating `["GET"]` then
`["POST"]` yields identities 0 and 1, and the fresh `["GET"]` point is the
zero long point. -/
theorem C5_get_or_create_identity_witness :
    methodGauge.WF ∧ methodGauge.validKey (some [some "GET"]) ∧
    methodGauge.validKey (some [some "POST"]) ∧
    ([some "GET"] : Key) ≠ [some "POST"] ∧
    (0 : Nat) ≠ 1 ∧
    ([some "GET"], 0, GaugePointVal.long 0) ∈ gaugeGET.points :=
  ⟨by decide, by decide, by decide, by decide,
   (C5_get_or_create_identity methodGauge [some "GET"] [some "POST"]
      (by decide) (by decide) (by decide) (by decide)).1
     0 gaugeGET 1 gaugeGETPOST rfl rfl,
   (C5_get_or_create_identity methodGauge [some "GET"] [some "POST"]
      (by decide) (by decide) (by decide) (by decide)).2.2.1
     (by decide) 0 gaugeGET rfl⟩

/-- C6: `create_time_series` raises `InvalidArgument` (Python `ValueError`)
when `func` is absent; and calling it twice with the same fresh valid tuple
and two different functions keeps the first function — the second call
returns the same instance and same gauge, and every entry for that tuple
still tracks the first function, so reads return the first function's
results. -/
theorem C6_create_first_registration_wins :
    ∀ (g : DerivedGauge) (t : Key) (f1 f2 : PyFunc),
      g.validKey (some t) → t ∉ g.keys →
      g.create_time_series (some t) none = PyResult.raises Exn.valueError ∧
      (∀ i1 g1 i2 g2,
        g.create_time_series (some t) (some f1) = PyResult.ok (i1, g1) →
        g1.create_time_series (some t) (some f2) = PyResult.ok (i2, g2) →
        g2 = g1 ∧ i2 = i1 ∧
        (t, i1, (⟨some f1, g.kind.newPoint⟩ : DerivedGaugePoint)) ∈
          g2.points ∧
        ∀ e ∈ g2.points, e.1 = t → e.2.2.func = some f1) := by
  intro g t f1 f2 hv hnm
  constructor
  · exact create_none_raises g t hv
  · intro i1 g1 i2 g2 h1 h2
    have e1 := create_ok g t f1 (i1, g1) h1
    have hf1 : g.points.find? (fun x => decide (x.1 = t)) = none := by
      rw [List.find?_eq_none]
      intro x hx
      simp only [decide_eq_true_eq]
      intro hxt
      exact hnm (List.mem_map.mpr ⟨x, hx, hxt⟩)
    rw [createTS_none g t f1 hf1] at e1
    obtain ⟨rfl, rfl⟩ := Prod.mk.inj e1
    have e2 := create_ok _ t f2 (i2, g2) h2
    have hfApp :
        (g.points ++ [(t, g.nextId,
            (⟨some f1, g.kind.newPoint⟩ : DerivedGaugePoint))]).find?
          (fun x => decide (x.1 = t)) =
        some (t, g.nextId, ⟨some f1, g.kind.newPoint⟩) := by
      rw [List.find?_append, hf1]
      simp
    rw [createTS_found _ t f2 _ hfApp] at e2
    obtain ⟨rfl, rfl⟩ := Prod.mk.inj e2
    refine ⟨rfl, rfl, ?_, ?_⟩
    · exact List.mem_append.mpr (Or.inr (List.mem_singleton.mpr rfl))
    · intro e he het
      rcases List.mem_append.mp he with hmem | hmem
      · exact absurd (List.mem_map.mpr ⟨e, hmem, het⟩) hnm
      · rw [List.mem_singleton] at hmem
        rw [hmem]

/-- Witness for C6 at a concrete derived gauge: registering `intFunc` then
`floatFunc` for the default tuple keeps `intFunc`. -/
theorem C6_create_first_registration_wins_witness :
    emptyDerivedGauge.validKey (some []) ∧
    ([] : Key) ∉ emptyDerivedGauge.keys ∧
    emptyDerivedGauge.create_time_series (some []) none =
      PyResult.raises Exn.valueError ∧
    (goodDerivedGauge = goodDerivedGauge ∧ (0 : Nat) = 0 ∧
      (([] : Key), 0,
        (⟨some intFunc, GaugePointVal.long 0⟩ : DerivedGaugePoint)) ∈
        goodDerivedGauge.points ∧
      ∀ e ∈ goodDerivedGauge.points, e.1 = [] → e.2.2.func = some intFunc) :=
  ⟨by decide, by decide,
   (C6_create_first_registration_wins emptyDerivedGauge [] intFunc floatFunc
      (by decide) (by decide)).1,
   (C6_create_first_registration_wins emptyDerivedGauge [] intFunc floatFunc
      (by decide) (by decide)).2 0 goodDerivedGauge 0 goodDerivedGauge
     rfl rfl⟩

/-- C8: `clear` replaces the point map by a new empty one, so `get_metric`
after `clear` returns absent; and after a successful `remove_time_series` on
a valid tuple, no later snapshot contains a time series for that tuple as
long as no subsequent operation re-creates it. -/
theorem C8_clear_and_removal_persistence :
    (∀ (g : Gauge) (t : Nat),
      (g.clear).points = [] ∧ Gauge.get_metric g.clear t = none) ∧
    (∀ (g : Gauge) (lvs : Key) (ops : List GaugeOp) (t : Nat),
      g.validKey (some lvs) →
      (∀ op ∈ ops, op.creates g.len_label_keys lvs = false) →
      ∀ m,
        (Gauge.runOps ((g.remove_time_series (some lvs)).2) ops).get_metric
            t = some m →
        ∀ ts ∈ m.time_series, ts.label_values ≠ lvs) := by
  constructor
  · intro g t
    exact ⟨rfl, rfl⟩
  · intro g lvs ops t hv hcr m hm ts hts
    intro hts_eq
    have hrem : (g.remove_time_series (some lvs)).2 = g.removeTS lvs := by
      rw [remove_valid g lvs hv]
    have h1 : lvs ∉ ((g.remove_time_series (some lvs)).2).keys := by
      rw [hrem]
      exact not_mem_keys_removeTS_self g lvs
    have hlen : ((g.remove_time_series (some lvs)).2).len_label_keys =
        g.len_label_keys := by
      rw [hrem]
      rfl
    have h2 :
        lvs ∉
          (Gauge.runOps ((g.remove_time_series (some lvs)).2) ops).keys := by
      apply notMem_keys_runOps _ _ _ h1
      intro op hop
      rw [hlen]
      exact hcr op hop
    have h3 := get_metric_labels _ t m hm ts hts
    rw [hts_eq] at h3
    exact h2 h3

/-- Witness for C8 at the scenario gauge: clearing empties the map; removing
`["GET"]` and then creating `["POST"]` yields a snapshot whose only series is
not keyed by `["GET"]`. -/
theorem C8_clear_and_removal_persistence_witness :
    (gaugeGET.clear).points = [] ∧
    gaugeGET.validKey (some [some "GET"]) ∧
    postSnapshotGauge.get_metric 0 = some postMetric ∧
    postTS.label_values ≠ [some "GET"] :=
  ⟨(C8_clear_and_removal_persistence.1 gaugeGET 0).1,
   by decide,
   rfl,
   C8_clear_and_removal_persistence.2 gaugeGET [some "GET"]
     [GaugeOp.getOrCreate (some [some "POST"])] 0 (by decide) (by decide)
     postMetric rfl postTS (by decide)⟩

/-- Counterexample to C9 as stated: on the concrete one-entry gauge
`gaugeGET`, the `get_metric` execution trace converts the copied point while
the map lock is still held — the conversion event at index 1 precedes the
release event at index 2, refuting "conversion happens after the lock is
released". -/
theorem C9_counterexample :
    gaugeGET.points ≠ [] ∧
    gaugeGET.get_metric_trace =
      [LockEvent.acquire, LockEvent.convert [some "GET"],
        LockEvent.release] ∧
    ¬ convertsOutsideLock gaugeGET.get_metric_trace := by
  refine ⟨by decide, by decide, ?_⟩
  intro h
  have h2 := h 2 1 [some "GET"] rfl rfl
  omega

/-- C9 amended: during `get_metric` on a non-empty gauge the map lock is
held while each copied point is converted into its time-series value — the
trace is acquire, then one conversion per entry, then release, and every
conversion event lies strictly between the acquire (index 0) and the release
(last index), i.e. inside the lock, not after its release. -/
theorem C9_conversion_inside_lock :
    ∀ (π : Type) (g : BaseGauge π), g.points ≠ [] →
      g.get_metric_trace =
        LockEvent.acquire ::
          ((g.points.map fun e => LockEvent.convert e.1) ++
            [LockEvent.release]) ∧
      g.get_metric_trace.get? 0 = some LockEvent.acquire ∧
      g.get_metric_trace.get? (g.get_metric_trace.length - 1) =
        some LockEvent.release ∧
      (∀ j lv, g.get_metric_trace.get? j = some (LockEvent.convert lv) →
        0 < j ∧ j < g.get_metric_trace.length - 1) := by
  intro π g h
  have htr : g.get_metric_trace =
      LockEvent.acquire ::
        ((g.points.map fun e => LockEvent.convert e.1) ++
          [LockEvent.release]) := by
    simp [BaseGauge.get_metric_trace, List.isEmpty_iff, h]
  have hlen : g.get_metric_trace.length =
      (g.points.map fun e => LockEvent.convert e.1).length + 2 := by
    rw [htr]
    simp
  have hlast :
      g.get_metric_trace.get?
        ((g.points.map fun e => LockEvent.convert e.1).length + 1) =
      some LockEvent.release := by
    rw [htr]
    rw [List.get?_cons_succ]
    exact
      List.get?_concat_length (g.points.map fun e => LockEvent.convert e.1)
        LockEvent.release
  refine ⟨htr, by rw [htr]; rfl, ?_, ?_⟩
  · rw [hlen]
    simpa using hlast
  · intro j lv hj
    have hjlen : j < g.get_metric_trace.length := by
      rcases List.get?_eq_some.mp hj with ⟨hlt, _⟩
      exact hlt
    have hj0 : j ≠ 0 := by
      intro h0
      rw [h0, htr] at hj
      simp at hj
    have hjlast :
        j ≠ (g.points.map fun e => LockEvent.convert e.1).length + 1 := by
      intro hl
      rw [hl, hlast] at hj
      simp at hj
    rw [hlen] at hjlen ⊢
    omega

/-- Witness for C9 amended at the concrete gauge `gaugeGET`: its single
conversion event sits at index 1, strictly between acquire and release. -/
theorem C9_conversion_inside_lock_witness :
    gaugeGET.points ≠ [] ∧
    gaugeGET.get_metric_trace.get? 0 = some LockEvent.acquire ∧
    (0 < 1 ∧ 1 < gaugeGET.get_metric_trace.length - 1) :=
  ⟨by decide,
   (C9_conversion_inside_lock GaugePointVal gaugeGET (by decide)).2.1,
   (C9_conversion_inside_lock GaugePointVal gaugeGET (by decide)).2.2.2
     1 [some "GET"] rfl⟩

end OCGauge
